import Mathlib

/-!
Verification of the HvspFuseRestore firmware (HvspFuseRestore.c).

The firmware restores factory-default fuse bytes of ATtiny targets over the
bit-banged High-voltage Serial Programming protocol.  We embed the relevant
C functions shallowly: machine bytes become naturals reduced mod 256 where
the C code overflows, the physical pins become explicit event traces, and
the target chip becomes an oracle supplying the sampled input-line values.
-/

namespace Hvsp

/-- An observable event of the byte-transfer engine: a clock pulse together
with the values currently driven on the SDI and SII output lines, or a sample
taken from the SDO input line. -/
inductive Ev where
  | pulse : Bool → Bool → Ev
  | sample : Bool → Ev
deriving DecidableEq, Repr

/-- The 8-iteration loop body of transferByte.  Argument order: input-line
oracle, loop index, current data byte, current instruction byte, accumulated
byteRead, remaining iterations.  Each iteration samples SDO, shifts the
sample into byteRead, drives the top bits of data and instruction on SDI and
SII, pulses the clock, and shifts data and instruction left (as uint8_t,
i.e. mod 256). -/
def transferIter (sdo : Nat → Bool) : Nat → Nat → Nat → Nat → Nat → Nat × List Ev
  | _, _, _, byteRead, 0 => (byteRead, [])
  | i, data, instruction, byteRead, n+1 =>
    let b := sdo i
    let br := byteRead * 2 % 256 + cond b 1 0
    let rest := transferIter sdo (i+1) (data * 2 % 256) (instruction * 2 % 256) br n
    (rest.1, Ev.sample b :: Ev.pulse (decide (data &&& 128 ≠ 0)) (decide (instruction &&& 128 ≠ 0)) :: rest.2)

/-- Embedding of transferByte: drives one leading zero pair with a clock
pulse, runs the 8-bit loop, then drives two trailing zero pairs with clock
pulses; returns the assembled byte and the event trace. -/
def transferByte (data instruction : Nat) (sdo : Nat → Bool) : Nat × List Ev :=
  let r := transferIter sdo 0 data instruction 0 8
  (r.1, Ev.pulse false false :: (r.2 ++ [Ev.pulse false false, Ev.pulse false false]))

/-- Trace demanded by the specification: one leading zero pair, then for each
of the 8 cycles a sample of the input line followed by the pulse driving the
bits of data and instruction most-significant-bit first, then two trailing
zero pairs. -/
def specTrace (data instruction : Nat) (sdo : Nat → Bool) : List Ev :=
  Ev.pulse false false ::
  Ev.sample (sdo 0) :: Ev.pulse (data.testBit 7) (instruction.testBit 7) ::
  Ev.sample (sdo 1) :: Ev.pulse (data.testBit 6) (instruction.testBit 6) ::
  Ev.sample (sdo 2) :: Ev.pulse (data.testBit 5) (instruction.testBit 5) ::
  Ev.sample (sdo 3) :: Ev.pulse (data.testBit 4) (instruction.testBit 4) ::
  Ev.sample (sdo 4) :: Ev.pulse (data.testBit 3) (instruction.testBit 3) ::
  Ev.sample (sdo 5) :: Ev.pulse (data.testBit 2) (instruction.testBit 2) ::
  Ev.sample (sdo 6) :: Ev.pulse (data.testBit 1) (instruction.testBit 1) ::
  Ev.sample (sdo 7) :: Ev.pulse (data.testBit 0) (instruction.testBit 0) ::
  Ev.pulse false false :: Ev.pulse false false :: []

/-- Result demanded by the specification: the first sampled bit is the most
significant bit of the returned byte. -/
def specResult (sdo : Nat → Bool) : Nat :=
  cond (sdo 0) 128 0 + cond (sdo 1) 64 0 + cond (sdo 2) 32 0 + cond (sdo 3) 16 0 +
  cond (sdo 4) 8 0 + cond (sdo 5) 4 0 + cond (sdo 6) 2 0 + cond (sdo 7) 1 0

/-- Number of clock pulses in an event trace. -/
def pulseCount (l : List Ev) : Nat :=
  l.countP (fun e => match e with | Ev.pulse _ _ => true | _ => false)

/-- For a byte below 256, the repeated left-shift mod 256 exposes its bits
most-significant first through the mask test of the source loop. -/
lemma shiftBits : ∀ d : Nat, d < 256 →
    (decide (d &&& 128 ≠ 0) = d.testBit 7 ∧
     decide (d * 2 % 256 &&& 128 ≠ 0) = d.testBit 6 ∧
     decide (d * 2 % 256 * 2 % 256 &&& 128 ≠ 0) = d.testBit 5 ∧
     decide (d * 2 % 256 * 2 % 256 * 2 % 256 &&& 128 ≠ 0) = d.testBit 4 ∧
     decide (d * 2 % 256 * 2 % 256 * 2 % 256 * 2 % 256 &&& 128 ≠ 0) = d.testBit 3 ∧
     decide (d * 2 % 256 * 2 % 256 * 2 % 256 * 2 % 256 * 2 % 256 &&& 128 ≠ 0) = d.testBit 2 ∧
     decide (d * 2 % 256 * 2 % 256 * 2 % 256 * 2 % 256 * 2 % 256 * 2 % 256 &&& 128 ≠ 0) = d.testBit 1 ∧
     decide (d * 2 % 256 * 2 % 256 * 2 % 256 * 2 % 256 * 2 % 256 * 2 % 256 * 2 % 256 &&& 128 ≠ 0) = d.testBit 0) := by
  set_option maxRecDepth 100000 in decide

/-- C1: transferByte drives exactly 11 clock pulses, one leading pulse with
both lines low, 8 pulses carrying the bits of data and instruction MSB
first (the input line being sampled before the new bits are driven), two
trailing pulses with both lines low, and returns the sampled bits assembled
MSB first. -/
theorem transferByte_protocol (data instruction : Nat)
    (hd : data < 256) (hi : instruction < 256) (sdo : Nat → Bool) :
    transferByte data instruction sdo = (specResult sdo, specTrace data instruction sdo) ∧
    pulseCount (transferByte data instruction sdo).2 = 11 := by
  obtain ⟨d7, d6, d5, d4, d3, d2, d1, d0⟩ := shiftBits data hd
  obtain ⟨i7, i6, i5, i4, i3, i2, i1, i0⟩ := shiftBits instruction hi
  have key : transferByte data instruction sdo = (specResult sdo, specTrace data instruction sdo) := by
    simp only [transferByte, transferIter, specTrace, specResult, List.cons_append,
      List.nil_append, Prod.mk.injEq]
    rw [d7, d6, d5, d4, d3, d2, d1, d0, i7, i6, i5, i4, i3, i2, i1, i0]
    refine ⟨?_, rfl⟩
    cases h0 : sdo 0 <;> cases h1 : sdo 1 <;> cases h2 : sdo 2 <;> cases h3 : sdo 3 <;>
      cases h4 : sdo 4 <;> cases h5 : sdo 5 <;> cases h6 : sdo 6 <;> cases h7 : sdo 7 <;> rfl
  refine ⟨key, ?_⟩
  rw [key]
  simp [pulseCount, specTrace, List.countP_cons]

/-- Concrete instantiation of the transferByte protocol theorem. -/
theorem transferByte_protocol_witness :
    (171 : Nat) < 256 ∧ (205 : Nat) < 256 ∧
    (transferByte 171 205 (fun i => decide (i % 2 = 0)) =
      (specResult (fun i => decide (i % 2 = 0)), specTrace 171 205 (fun i => decide (i % 2 = 0))) ∧
     pulseCount (transferByte 171 205 (fun i => decide (i % 2 = 0))).2 = 11) :=
  ⟨by decide, by decide, transferByte_protocol 171 205 (by decide) (by decide) _⟩

/-- One record of the compiled-in device table: a 3-byte signature and the
three factory-default fuse bytes (TargetCpuInfo_t in the source). -/
structure TargetCpuInfo where
  signature : Nat × Nat × Nat
  fuseLowBits : Nat
  fuseHighBits : Nat
  fuseExtendedBits : Nat
deriving DecidableEq, Repr

/-- First signature byte of a record. -/
def sig0 (r : TargetCpuInfo) : Nat := r.signature.1

/-- Second signature byte of a record. -/
def sig1 (r : TargetCpuInfo) : Nat := r.signature.2.1

/-- Third signature byte of a record. -/
def sig2 (r : TargetCpuInfo) : Nat := r.signature.2.2

/-- The device table of the source, in order: ATtiny13, ATtiny24, ATtiny44,
ATtiny84, ATtiny25, ATtiny45, ATtiny85, then the all-zero terminator record
(SIGNATURE_0 is 0x1E on these parts). -/
def targetCpu : List TargetCpuInfo :=
  [⟨(0x1E, 0x90, 0x07), 0x6A, 0xFF, 0x00⟩,
   ⟨(0x1E, 0x91, 0x0B), 0x62, 0xDF, 0xFF⟩,
   ⟨(0x1E, 0x92, 0x07), 0x62, 0xDF, 0xFF⟩,
   ⟨(0x1E, 0x93, 0x0C), 0x62, 0xDF, 0xFF⟩,
   ⟨(0x1E, 0x91, 0x08), 0x62, 0xDF, 0xFF⟩,
   ⟨(0x1E, 0x92, 0x06), 0x62, 0xDF, 0xFF⟩,
   ⟨(0x1E, 0x93, 0x0B), 0x62, 0xDF, 0xFF⟩,
   ⟨(0, 0, 0), 0, 0, 0⟩]

/-- The selection logic of the device scan in main: walk the table while the
first signature byte of the record is nonzero (the for-loop guard), and stop
at the first record whose three signature bytes equal the live signature
bytes s0, s1, s2 read from the target. -/
def findDevice (s0 s1 s2 : Nat) : List TargetCpuInfo → Option TargetCpuInfo
  | [] => none
  | r :: rest =>
    if sig0 r = 0 then none
    else if s0 = sig0 r ∧ s1 = sig1 r ∧ s2 = sig2 r then some r
    else findDevice s0 s1 s2 rest

/-- Selection demanded by the specification: scan the table in order, yield
no match as soon as the terminator record with all-zero signature is
reached, otherwise yield the first record whose 3-byte signature exactly
equals the live signature. -/
def findDeviceSpec (s0 s1 s2 : Nat) : List TargetCpuInfo → Option TargetCpuInfo
  | [] => none
  | r :: rest =>
    if r.signature = (0, 0, 0) then none
    else if r.signature = (s0, s1, s2) then some r
    else findDeviceSpec s0 s1 s2 rest

/-- On any table in which a zero first signature byte occurs only in an
all-zero signature, the scan of main computes exactly the specified
first-match selection. -/
lemma findDevice_eq_spec (s0 s1 s2 : Nat) :
    ∀ l : List TargetCpuInfo, (∀ r ∈ l, sig0 r = 0 → r.signature = (0, 0, 0)) →
      findDevice s0 s1 s2 l = findDeviceSpec s0 s1 s2 l := by
  intro l
  induction l with
  | nil => intro _; rfl
  | cons r rest ih =>
    intro h
    have hr := h r (List.mem_cons_self r rest)
    have hrest : ∀ x ∈ rest, sig0 x = 0 → x.signature = (0, 0, 0) :=
      fun x hx => h x (List.mem_cons_of_mem r hx)
    by_cases hz : sig0 r = 0
    · have hsig : r.signature = (0, 0, 0) := hr hz
      simp [findDevice, findDeviceSpec, hz, hsig]
    · have hsig : ¬ r.signature = (0, 0, 0) := by
        intro e
        exact hz (by simp [sig0, e])
      by_cases hm : s0 = sig0 r ∧ s1 = sig1 r ∧ s2 = sig2 r
      · have hmatch : r.signature = (s0, s1, s2) := by
          obtain ⟨e0, e1, e2⟩ := hm
          simp only [sig0, sig1, sig2] at e0 e1 e2
          rw [e0, e1, e2]
        simp [findDevice, findDeviceSpec, hz, hm, hsig, hmatch]
      · have hmatch : ¬ r.signature = (s0, s1, s2) := by
          intro e
          exact hm ⟨by simp [sig0, e], by simp [sig1, e], by simp [sig2, e]⟩
        have hsig0 : ¬ r.signature = 0 := by simpa using hsig
        simp [findDevice, findDeviceSpec, hz, hm, hsig, hsig0, hmatch, ih hrest]

/-- The specified selection yields no match when no record carries the live
signature. -/
lemma findDeviceSpec_none (s0 s1 s2 : Nat) :
    ∀ l : List TargetCpuInfo, (∀ r ∈ l, r.signature ≠ (s0, s1, s2)) →
      findDeviceSpec s0 s1 s2 l = none := by
  intro l
  induction l with
  | nil => intro _; rfl
  | cons r rest ih =>
    intro h
    have hr := h r (List.mem_cons_self r rest)
    have hrest := fun x hx => h x (List.mem_cons_of_mem r hx)
    by_cases hz : r.signature = (0, 0, 0)
    · simp [findDeviceSpec, hz]
    · simp [findDeviceSpec, hz, hr, ih hrest]

/-- C2: the device scan over the compiled-in table selects the first record
whose 3-byte signature equals the live signature, the records being examined
in table order and the all-zero terminator ending the scan; in particular a
signature present in no record yields no match. -/
theorem findDevice_first_match (s0 s1 s2 : Nat) :
    findDevice s0 s1 s2 targetCpu = findDeviceSpec s0 s1 s2 targetCpu ∧
    ((∀ r ∈ targetCpu, r.signature ≠ (s0, s1, s2)) →
      findDevice s0 s1 s2 targetCpu = none) := by
  have hmain : findDevice s0 s1 s2 targetCpu = findDeviceSpec s0 s1 s2 targetCpu :=
    findDevice_eq_spec s0 s1 s2 targetCpu (by decide)
  exact ⟨hmain, fun hnone => hmain.trans (findDeviceSpec_none s0 s1 s2 targetCpu hnone)⟩

/-- Concrete instantiation: the signature 0x1E 0x94 0x12 occurs in no table
record, so the scan yields no match. -/
theorem findDevice_first_match_witness :
    findDevice 0x1E 0x94 0x12 targetCpu = none :=
  (findDevice_first_match 0x1E 0x94 0x12).2 (by decide)

/-- The physical lines driven by main: the four programming lines, the
target supply, the high-voltage reset line (through the inverting
transistor, so a high level disables the 12 V signal), and the indicator
LED. -/
inductive Line where
  | SCI | SII | SDI | SDO | RST | VCC | LED
deriving DecidableEq, Repr

/-- An observable action of the restore attempt: pin-direction and
pin-level operations, busy delays, and the HVSP operations issued to the
target (signature reads, fuse writes, fuse readbacks). -/
inductive MAct where
  | setOutput : Line → MAct
  | setInput : Line → MAct
  | setHigh : Line → MAct
  | setLow : Line → MAct
  | toggle : Line → MAct
  | delayUs : Nat → MAct
  | delayMs : Nat → MAct
  | getSig : Nat → MAct
  | writeLow : Nat → MAct
  | writeHigh : Nat → MAct
  | writeExt : Nat → MAct
  | readLow | readHigh | readExt
deriving DecidableEq, Repr

/-- Oracle for one attached target: the byte each getSignature call with a
given index returns, and the bytes the three fuse readbacks return. -/
structure Target where
  sig : Nat → Nat
  rdLow : Nat
  rdHigh : Nat
  rdExt : Nat

/-- One iteration of the device-scan condition of main on record r: the
short-circuit conjunction issues getSignature(0) always, getSignature(1)
only if byte 0 matched, and getSignature(2) only if bytes 0 and 1 matched;
the Boolean is the value of the whole condition. -/
def scanStep (t : Target) (r : TargetCpuInfo) : Bool × List MAct :=
  if t.sig 0 = sig0 r then
    if t.sig 1 = sig1 r then
      if t.sig 2 = sig2 r then (true, [MAct.getSig 0, MAct.getSig 1, MAct.getSig 2])
      else (false, [MAct.getSig 0, MAct.getSig 1, MAct.getSig 2])
    else (false, [MAct.getSig 0, MAct.getSig 1])
  else (false, [MAct.getSig 0])

/-- The matched-record body of main: write the low and high fuse bytes,
write the extended fuse byte only if the stored value is nonzero, then
evaluate the verify condition, whose short-circuit connectives issue the
low readback always, the high readback only if the low readback matched,
and the extended readback only if low and high matched and the stored
extended value is nonzero. -/
def restoreVerify (t : Target) (r : TargetCpuInfo) : Bool × List MAct :=
  let wr := MAct.writeLow r.fuseLowBits :: MAct.writeHigh r.fuseHighBits ::
    (if r.fuseExtendedBits ≠ 0 then [MAct.writeExt r.fuseExtendedBits] else [])
  if r.fuseLowBits = t.rdLow then
    if r.fuseHighBits = t.rdHigh then
      if r.fuseExtendedBits = 0 then (true, wr ++ [MAct.readLow, MAct.readHigh])
      else if r.fuseExtendedBits = t.rdExt then
        (true, wr ++ [MAct.readLow, MAct.readHigh, MAct.readExt])
      else (false, wr ++ [MAct.readLow, MAct.readHigh, MAct.readExt])
    else (false, wr ++ [MAct.readLow, MAct.readHigh])
  else (false, wr ++ [MAct.readLow])

/-- The device for-loop of main: stop with failure at a record whose first
signature byte is zero, otherwise evaluate the scan condition on the record
and on a match run the restore-and-verify body and break, else continue
with the next record. -/
def scanLoop (t : Target) : List TargetCpuInfo → Bool × List MAct
  | [] => (false, [])
  | r :: rest =>
    if sig0 r = 0 then (false, [])
    else
      let s := scanStep t r
      if s.1 then
        let v := restoreVerify t r
        (v.1, s.2 ++ v.2)
      else
        let c := scanLoop t rest
        (c.1, s.2 ++ c.2)

/-- Entry into programming mode, in source order: configure the six lines
as outputs, drive the programming lines low with the reset line high
(12 V off) and the supply off, apply the supply, wait 60 us, assert the
12 V reset, wait 20 us, release the SDO line to input, wait 300 us. -/
def powerUpTrace : List MAct :=
  [MAct.setOutput Line.SCI, MAct.setOutput Line.SII, MAct.setOutput Line.SDI,
   MAct.setOutput Line.SDO, MAct.setOutput Line.RST, MAct.setOutput Line.VCC,
   MAct.setLow Line.SCI, MAct.setLow Line.SII, MAct.setLow Line.SDI,
   MAct.setLow Line.SDO, MAct.setHigh Line.RST, MAct.setLow Line.VCC,
   MAct.setHigh Line.VCC, MAct.delayUs 60, MAct.setLow Line.RST,
   MAct.delayUs 20, MAct.setInput Line.SDO, MAct.delayUs 300]

/-- Exit from programming mode, in source order: drive the programming
lines low, raise the reset line (12 V off), wait 10 us, remove the supply. -/
def powerDownTrace : List MAct :=
  [MAct.setLow Line.SCI, MAct.setLow Line.SII, MAct.setLow Line.SDI,
   MAct.setHigh Line.RST, MAct.delayUs 10, MAct.setLow Line.VCC]

/-- The result-reporting for-loop of main: on success drive the LED on (the
LED is wired active low), on failure toggle it, then delay 250 ms; repeated
for the given iteration count. -/
def reportLoop (ok : Bool) : Nat → List MAct
  | 0 => []
  | n+1 => (if ok then MAct.setLow Line.LED else MAct.toggle Line.LED) ::
      MAct.delayMs 250 :: reportLoop ok n

/-- The reporting phase runs 16 iterations of 250 ms each. -/
def reportTrace (ok : Bool) : List MAct := reportLoop ok 16

/-- One triggered restore attempt of main: power-up entry, the device scan
with restore and verify, the power-down exit, and the reporting phase;
paired with the final value of the success flag. -/
def attempt (t : Target) : Bool × List MAct :=
  let s := scanLoop t targetCpu
  (s.1, powerUpTrace ++ s.2 ++ powerDownTrace ++ reportTrace s.1)

/-- Recognizer for fuse-write actions. -/
def isWrite : MAct → Bool
  | MAct.writeLow _ => true
  | MAct.writeHigh _ => true
  | MAct.writeExt _ => true
  | _ => false

/-- Recognizer for fuse-readback actions. -/
def isRead : MAct → Bool
  | MAct.readLow => true
  | MAct.readHigh => true
  | MAct.readExt => true
  | _ => false

/-- Recognizer for signature-read actions. -/
def isGetSig : MAct → Bool
  | MAct.getSig _ => true
  | _ => false

/-- Recognizer for LED actions. -/
def isLedAct : MAct → Bool
  | MAct.setLow Line.LED => true
  | MAct.setHigh Line.LED => true
  | MAct.toggle Line.LED => true
  | _ => false

/-- The fuse writes the source issues for a matched record: the low and
high bytes unconditionally, the extended byte exactly when its stored value
is nonzero. -/
def writesOf (r : TargetCpuInfo) : List MAct :=
  MAct.writeLow r.fuseLowBits :: MAct.writeHigh r.fuseHighBits ::
    (if r.fuseExtendedBits ≠ 0 then [MAct.writeExt r.fuseExtendedBits] else [])

/-- The fuse readbacks the verify condition issues for a matched record:
always the low byte; the high byte only if the low byte read back equal;
the extended byte only if low and high read back equal and the stored
extended value is nonzero. -/
def readsOf (t : Target) (r : TargetCpuInfo) : List MAct :=
  if r.fuseLowBits = t.rdLow then
    if r.fuseHighBits = t.rdHigh then
      if r.fuseExtendedBits = 0 then [MAct.readLow, MAct.readHigh]
      else [MAct.readLow, MAct.readHigh, MAct.readExt]
    else [MAct.readLow, MAct.readHigh]
  else [MAct.readLow]

/-- Value of the verify condition of main for a matched record. -/
def verifyOk (t : Target) (r : TargetCpuInfo) : Bool :=
  decide (r.fuseLowBits = t.rdLow) &&
    (decide (r.fuseHighBits = t.rdHigh) &&
      (decide (r.fuseExtendedBits = 0) || decide (r.fuseExtendedBits = t.rdExt)))

/-- The restore-and-verify body decomposes into the writes followed by the
short-circuit readbacks, and returns the verify outcome. -/
lemma restoreVerify_eq (t : Target) (r : TargetCpuInfo) :
    restoreVerify t r = (verifyOk t r, writesOf r ++ readsOf t r) := by
  simp only [restoreVerify, verifyOk, writesOf, readsOf]
  split_ifs <;> simp_all

/-- Every action of a scan-condition evaluation is a signature read. -/
lemma scanStep_all (t : Target) (r : TargetCpuInfo) :
    (scanStep t r).2.all isGetSig = true := by
  simp only [scanStep]
  split_ifs <;> rfl

/-- The scan condition of main holds exactly when all three signature bytes
match. -/
lemma scanStep_true (t : Target) (r : TargetCpuInfo)
    (h0 : t.sig 0 = sig0 r) (h1 : t.sig 1 = sig1 r) (h2 : t.sig 2 = sig2 r) :
    (scanStep t r).1 = true := by
  simp only [scanStep]
  rw [if_pos h0, if_pos h1, if_pos h2]

/-- The scan condition of main fails when some signature byte differs. -/
lemma scanStep_false (t : Target) (r : TargetCpuInfo)
    (h : ¬(t.sig 0 = sig0 r ∧ t.sig 1 = sig1 r ∧ t.sig 2 = sig2 r)) :
    (scanStep t r).1 = false := by
  simp only [scanStep]
  split_ifs with h0 h1 h2
  · exact absurd ⟨h0, h1, h2⟩ h
  all_goals rfl

/-- A signature read is not a fuse write. -/
lemma isGetSig_not_isWrite (a : MAct) (h : isGetSig a = true) : isWrite a = false := by
  cases a <;> simp_all [isGetSig, isWrite]

/-- A signature read is not a fuse readback. -/
lemma isGetSig_not_isRead (a : MAct) (h : isGetSig a = true) : isRead a = false := by
  cases a <;> simp_all [isGetSig, isRead]

/-- Lists of signature reads contribute nothing to the fuse-write filter. -/
lemma filter_isWrite_of_getSig (l : List MAct) (h : l.all isGetSig = true) :
    l.filter isWrite = [] := by
  induction l with
  | nil => rfl
  | cons a l ih =>
    rw [List.all_cons, Bool.and_eq_true] at h
    rw [List.filter_cons_of_neg, ih h.2]
    simp [isGetSig_not_isWrite a h.1]

/-- Lists of signature reads contribute nothing to the fuse-readback
filter. -/
lemma filter_isRead_of_getSig (l : List MAct) (h : l.all isGetSig = true) :
    l.filter isRead = [] := by
  induction l with
  | nil => rfl
  | cons a l ih =>
    rw [List.all_cons, Bool.and_eq_true] at h
    rw [List.filter_cons_of_neg, ih h.2]
    simp [isGetSig_not_isRead a h.1]

/-- The write block consists exactly of the fuse writes. -/
lemma filter_isWrite_writesOf (r : TargetCpuInfo) :
    (writesOf r).filter isWrite = writesOf r := by
  simp only [writesOf]
  split_ifs <;> rfl

/-- The readback block contains no fuse writes. -/
lemma filter_isWrite_readsOf (t : Target) (r : TargetCpuInfo) :
    (readsOf t r).filter isWrite = [] := by
  simp only [readsOf]
  split_ifs <;> rfl

/-- The write block contains no fuse readbacks. -/
lemma filter_isRead_writesOf (r : TargetCpuInfo) :
    (writesOf r).filter isRead = [] := by
  simp only [writesOf]
  split_ifs <;> rfl

/-- The readback block consists exactly of the fuse readbacks. -/
lemma filter_isRead_readsOf (t : Target) (r : TargetCpuInfo) :
    (readsOf t r).filter isRead = readsOf t r := by
  simp only [readsOf]
  split_ifs <;> rfl

/-- When the scan finds no matching record, main leaves the success flag
false and the device loop emits signature reads only. -/
lemma scanLoop_none (t : Target) :
    ∀ l : List TargetCpuInfo, findDevice (t.sig 0) (t.sig 1) (t.sig 2) l = none →
      (scanLoop t l).1 = false ∧ (scanLoop t l).2.all isGetSig = true := by
  intro l
  induction l with
  | nil => intro _; exact ⟨rfl, rfl⟩
  | cons r rest ih =>
    intro h
    rw [findDevice] at h
    by_cases hz : sig0 r = 0
    · rw [if_pos hz] at h
      simp [scanLoop, hz]
    · rw [if_neg hz] at h
      by_cases hm : t.sig 0 = sig0 r ∧ t.sig 1 = sig1 r ∧ t.sig 2 = sig2 r
      · rw [if_pos hm] at h
        exact absurd h (by simp)
      · rw [if_neg hm] at h
        obtain ⟨ih1, ih2⟩ := ih h
        have hs1 : (scanStep t r).1 = false := scanStep_false t r hm
        simp only [scanLoop, if_neg hz, hs1, Bool.false_eq_true, if_false]
        exact ⟨ih1, by simp [List.all_append, scanStep_all t r, ih2]⟩

/-- When the scan finds a matching record, main runs the restore-and-verify
body on it: the loop trace is a block of signature reads followed by the
fuse writes and the short-circuit readbacks, and the success flag is the
verify outcome. -/
lemma scanLoop_some (t : Target) :
    ∀ l : List TargetCpuInfo, ∀ r : TargetCpuInfo,
      findDevice (t.sig 0) (t.sig 1) (t.sig 2) l = some r →
      (scanLoop t l).1 = verifyOk t r ∧
      ∃ pre, (scanLoop t l).2 = pre ++ (writesOf r ++ readsOf t r) ∧
        pre.all isGetSig = true := by
  intro l
  induction l with
  | nil => intro r h; exact absurd h (by simp [findDevice])
  | cons q rest ih =>
    intro r h
    rw [findDevice] at h
    by_cases hz : sig0 q = 0
    · rw [if_pos hz] at h
      exact absurd h (by simp)
    · rw [if_neg hz] at h
      by_cases hm : t.sig 0 = sig0 q ∧ t.sig 1 = sig1 q ∧ t.sig 2 = sig2 q
      · rw [if_pos hm] at h
        have hqr : q = r := by simpa using h
        subst hqr
        have hs1 : (scanStep t q).1 = true := scanStep_true t q hm.1 hm.2.1 hm.2.2
        simp only [scanLoop, if_neg hz, hs1, if_true]
        rw [restoreVerify_eq]
        exact ⟨rfl, (scanStep t q).2, rfl, scanStep_all t q⟩
      · rw [if_neg hm] at h
        obtain ⟨ih1, pre, hpre, hall⟩ := ih r h
        have hs1 : (scanStep t q).1 = false := scanStep_false t q hm
        simp only [scanLoop, if_neg hz, hs1, Bool.false_eq_true, if_false]
        refine ⟨ih1, (scanStep t q).2 ++ pre, ?_, ?_⟩
        · rw [hpre, List.append_assoc]
        · simp [List.all_append, scanStep_all t q, hall]

/-- The power-up entry issues no fuse write. -/
lemma filter_isWrite_powerUp : powerUpTrace.filter isWrite = [] := rfl

/-- The power-down exit issues no fuse write. -/
lemma filter_isWrite_powerDown : powerDownTrace.filter isWrite = [] := rfl

/-- The power-up entry issues no fuse readback. -/
lemma filter_isRead_powerUp : powerUpTrace.filter isRead = [] := rfl

/-- The power-down exit issues no fuse readback. -/
lemma filter_isRead_powerDown : powerDownTrace.filter isRead = [] := rfl

/-- The reporting loop issues no fuse write. -/
lemma filter_isWrite_reportLoop (ok : Bool) :
    ∀ n, (reportLoop ok n).filter isWrite = [] := by
  intro n
  induction n with
  | zero => rfl
  | succ n ih => cases ok <;> simp_all [reportLoop, isWrite]

/-- The reporting loop issues no fuse readback. -/
lemma filter_isRead_reportLoop (ok : Bool) :
    ∀ n, (reportLoop ok n).filter isRead = [] := by
  intro n
  induction n with
  | zero => rfl
  | succ n ih => cases ok <;> simp_all [reportLoop, isRead]

/-- All fuse writes of an attempt happen inside the device loop. -/
lemma attempt_filter_isWrite (t : Target) :
    ((attempt t).2).filter isWrite = ((scanLoop t targetCpu).2).filter isWrite := by
  simp only [attempt, List.filter_append, filter_isWrite_powerUp,
    filter_isWrite_powerDown, reportTrace, filter_isWrite_reportLoop]
  simp

/-- All fuse readbacks of an attempt happen inside the device loop. -/
lemma attempt_filter_isRead (t : Target) :
    ((attempt t).2).filter isRead = ((scanLoop t targetCpu).2).filter isRead := by
  simp only [attempt, List.filter_append, filter_isRead_powerUp,
    filter_isRead_powerDown, reportTrace, filter_isRead_reportLoop]
  simp

/-- C3: on a matched record the attempt writes the low and the high fuse
byte unconditionally, and writes the extended fuse byte exactly when the
stored extended value is nonzero; no other fuse write is issued. -/
theorem restore_writes_matched (t : Target) (r : TargetCpuInfo)
    (h : findDevice (t.sig 0) (t.sig 1) (t.sig 2) targetCpu = some r) :
    ((attempt t).2).filter isWrite =
      MAct.writeLow r.fuseLowBits :: MAct.writeHigh r.fuseHighBits ::
        (if r.fuseExtendedBits ≠ 0 then [MAct.writeExt r.fuseExtendedBits] else []) := by
  obtain ⟨-, pre, hpre, hall⟩ := scanLoop_some t targetCpu r h
  rw [attempt_filter_isWrite t, hpre, List.filter_append, List.filter_append,
    filter_isWrite_of_getSig pre hall, filter_isWrite_writesOf,
    filter_isWrite_readsOf]
  simp [writesOf]

/-- Concrete instantiation of the matched-record write theorem on an
attached ATtiny24, whose record carries a nonzero extended fuse byte. -/
theorem restore_writes_matched_witness :
    ((attempt ⟨fun i => if i = 0 then 0x1E else if i = 1 then 0x91 else 0x0B,
        0x62, 0xDF, 0xFF⟩).2).filter isWrite =
      MAct.writeLow 0x62 :: MAct.writeHigh 0xDF ::
        (if (0xFF : Nat) ≠ 0 then [MAct.writeExt 0xFF] else []) :=
  restore_writes_matched _ ⟨(0x1E, 0x91, 0x0B), 0x62, 0xDF, 0xFF⟩ (by decide)

/-- C5: when the live signature matches no record, the attempt fails, no
fuse write at all is issued, and the trace proceeds to the power-down exit
followed by the failure reporting. -/
theorem no_match_no_write (t : Target)
    (h : findDevice (t.sig 0) (t.sig 1) (t.sig 2) targetCpu = none) :
    (attempt t).1 = false ∧
    ((attempt t).2).filter isWrite = [] ∧
    ∃ pre, (attempt t).2 = pre ++ (powerDownTrace ++ reportTrace false) ∧
      pre.filter isWrite = [] := by
  obtain ⟨h1, h2⟩ := scanLoop_none t targetCpu h
  refine ⟨h1, ?_, ?_⟩
  · rw [attempt_filter_isWrite t]
    exact filter_isWrite_of_getSig _ h2
  · refine ⟨powerUpTrace ++ (scanLoop t targetCpu).2, ?_, ?_⟩
    · simp only [attempt]
      rw [h1, List.append_assoc]
    · rw [List.filter_append, filter_isWrite_powerUp,
        filter_isWrite_of_getSig _ h2]
      rfl

/-- Concrete instantiation of the no-match theorem on a target whose
signature bytes all read 0xAA. -/
theorem no_match_no_write_witness :
    (attempt ⟨fun _ => 0xAA, 0, 0, 0⟩).1 = false ∧
    ((attempt ⟨fun _ => 0xAA, 0, 0, 0⟩).2).filter isWrite = [] ∧
    ∃ pre, (attempt ⟨fun _ => 0xAA, 0, 0, 0⟩).2 =
        pre ++ (powerDownTrace ++ reportTrace false) ∧
      pre.filter isWrite = [] :=
  no_match_no_write _ (by decide)

/-- C7: an attached ATtiny13 whose signature reads 0x1E 0x90 0x07 and whose
fuse readbacks return 0x6A and 0xFF matches the ATtiny13 record, receives
exactly the low write 0x6A and the high write 0xFF with the extended write
skipped, reads back low and high only, and the attempt succeeds. -/
theorem attiny13_scenario :
    findDevice 0x1E 0x90 0x07 targetCpu =
      some ⟨(0x1E, 0x90, 0x07), 0x6A, 0xFF, 0x00⟩ ∧
    (attempt ⟨fun i => if i = 0 then 0x1E else if i = 1 then 0x90 else 0x07,
        0x6A, 0xFF, 0x00⟩).1 = true ∧
    ((attempt ⟨fun i => if i = 0 then 0x1E else if i = 1 then 0x90 else 0x07,
        0x6A, 0xFF, 0x00⟩).2).filter isWrite =
      [MAct.writeLow 0x6A, MAct.writeHigh 0xFF] ∧
    ((attempt ⟨fun i => if i = 0 then 0x1E else if i = 1 then 0x90 else 0x07,
        0x6A, 0xFF, 0x00⟩).2).filter isRead =
      [MAct.readLow, MAct.readHigh] := by
  decide

/-- Counterexample to the literal reading of the verification sentence: on
an attached ATtiny24 (extended fuse byte stored nonzero) whose low fuse
readback returns 0x00 instead of 0x62, the attempt matches the record and
issues all three writes, yet the short-circuit verify condition stops after
the first readback: the high and the extended fuse bytes are never read
back, although the stored extended value is nonzero. -/
theorem verify_reads_counterexample :
    findDevice 0x1E 0x91 0x0B targetCpu =
      some ⟨(0x1E, 0x91, 0x0B), 0x62, 0xDF, 0xFF⟩ ∧
    ((attempt ⟨fun i => if i = 0 then 0x1E else if i = 1 then 0x91 else 0x0B,
        0x00, 0xDF, 0xFF⟩).2).filter isWrite =
      [MAct.writeLow 0x62, MAct.writeHigh 0xDF, MAct.writeExt 0xFF] ∧
    MAct.readHigh ∉ (attempt ⟨fun i => if i = 0 then 0x1E else if i = 1 then 0x91 else 0x0B,
        0x00, 0xDF, 0xFF⟩).2 ∧
    MAct.readExt ∉ (attempt ⟨fun i => if i = 0 then 0x1E else if i = 1 then 0x91 else 0x0B,
        0x00, 0xDF, 0xFF⟩).2 ∧
    (attempt ⟨fun i => if i = 0 then 0x1E else if i = 1 then 0x91 else 0x0B,
        0x00, 0xDF, 0xFF⟩).1 = false := by
  decide

/-- C4 amended: on a matched record the verify step issues the low readback
always, the high readback only if the low byte read back equal, and the
extended readback only if low and high read back equal and the stored
extended value is nonzero; the attempt succeeds exactly when every written
value reads back identical (the extended comparison being skipped when the
stored value is zero). -/
theorem verify_readback_amended (t : Target) (r : TargetCpuInfo)
    (h : findDevice (t.sig 0) (t.sig 1) (t.sig 2) targetCpu = some r) :
    ((attempt t).2).filter isRead = readsOf t r ∧
    ((attempt t).1 = true ↔
      (r.fuseLowBits = t.rdLow ∧ r.fuseHighBits = t.rdHigh ∧
        (r.fuseExtendedBits = 0 ∨ r.fuseExtendedBits = t.rdExt))) := by
  obtain ⟨h1, pre, hpre, hall⟩ := scanLoop_some t targetCpu r h
  constructor
  · rw [attempt_filter_isRead t, hpre, List.filter_append, List.filter_append,
      filter_isRead_of_getSig pre hall, filter_isRead_writesOf,
      filter_isRead_readsOf]
    rfl
  · have hfst : (attempt t).1 = (scanLoop t targetCpu).1 := rfl
    rw [hfst, h1]
    simp [verifyOk]

/-- Concrete instantiation of the amended verification theorem on an
attached ATtiny24 whose readbacks return exactly the written values. -/
theorem verify_readback_amended_witness :
    ((attempt ⟨fun i => if i = 0 then 0x1E else if i = 1 then 0x91 else 0x0B,
        0x62, 0xDF, 0xFF⟩).2).filter isRead =
      readsOf ⟨fun i => if i = 0 then 0x1E else if i = 1 then 0x91 else 0x0B,
        0x62, 0xDF, 0xFF⟩ ⟨(0x1E, 0x91, 0x0B), 0x62, 0xDF, 0xFF⟩ ∧
    ((attempt ⟨fun i => if i = 0 then 0x1E else if i = 1 then 0x91 else 0x0B,
        0x62, 0xDF, 0xFF⟩).1 = true ↔
      ((0x62 : Nat) = 0x62 ∧ (0xDF : Nat) = 0xDF ∧
        ((0xFF : Nat) = 0 ∨ (0xFF : Nat) = 0xFF))) :=
  verify_readback_amended _ ⟨(0x1E, 0x91, 0x0B), 0x62, 0xDF, 0xFF⟩ (by decide)

/-- Actions that change the level of the supply line or of the
high-voltage reset line. -/
def touchesPower : MAct → Bool
  | MAct.setLow Line.VCC => true
  | MAct.setHigh Line.RST => true
  | MAct.setLow Line.RST => true
  | _ => false

/-- A trace is clean when it never drives the supply low nor moves the
high-voltage reset line. -/
def clean (l : List MAct) : Bool := l.all (fun a => !touchesPower a)

/-- Safety check of the exit ordering: walk the trace tracking whether the
high-voltage reset line is at its disabled level, and demand that level
whenever the supply is driven low. -/
def hvSafe : List MAct → Bool → Bool
  | [], _ => true
  | MAct.setLow Line.VCC :: rest, rstOff => rstOff && hvSafe rest rstOff
  | MAct.setHigh Line.RST :: rest, _ => hvSafe rest true
  | MAct.setLow Line.RST :: rest, _ => hvSafe rest false
  | _ :: rest, rstOff => hvSafe rest rstOff

/-- Actions that touch neither the supply nor the reset line step the
safety check without changing its state. -/
lemma hvSafe_cons_of_not (a : MAct) (h : touchesPower a = false)
    (l : List MAct) (b : Bool) : hvSafe (a :: l) b = hvSafe l b := by
  cases a with
  | setOutput ln => rfl
  | setInput ln => rfl
  | setLow ln => cases ln <;> first | rfl | simp_all [touchesPower]
  | setHigh ln => cases ln <;> first | rfl | simp_all [touchesPower]
  | toggle ln => rfl
  | delayUs n => rfl
  | delayMs n => rfl
  | getSig n => rfl
  | writeLow n => rfl
  | writeHigh n => rfl
  | writeExt n => rfl
  | readLow => rfl
  | readHigh => rfl
  | readExt => rfl

/-- A clean block passes through the safety check unchanged. -/
lemma hvSafe_append : ∀ l : List MAct, clean l = true →
    ∀ rest b, hvSafe (l ++ rest) b = hvSafe rest b := by
  intro l
  induction l with
  | nil => intro _ rest b; rfl
  | cons a l ih =>
    intro h rest b
    simp only [clean, List.all_cons, Bool.and_eq_true] at h
    have h1 : touchesPower a = false := by simpa using h.1
    rw [List.cons_append, hvSafe_cons_of_not a h1, ih h.2]

/-- The scan-condition actions are clean. -/
lemma clean_scanStep (t : Target) (r : TargetCpuInfo) :
    clean (scanStep t r).2 = true := by
  simp only [scanStep]
  split_ifs <;> rfl

/-- The fuse writes are clean. -/
lemma clean_writesOf (r : TargetCpuInfo) : clean (writesOf r) = true := by
  simp only [clean, writesOf]
  split_ifs <;> rfl

/-- The fuse readbacks are clean. -/
lemma clean_readsOf (t : Target) (r : TargetCpuInfo) :
    clean (readsOf t r) = true := by
  simp only [clean, readsOf]
  split_ifs <;> rfl

/-- Concatenation preserves cleanliness. -/
lemma clean_append (l1 l2 : List MAct) (h1 : clean l1 = true)
    (h2 : clean l2 = true) : clean (l1 ++ l2) = true := by
  simp only [clean, List.all_append] at *
  rw [h1, h2]
  rfl

/-- The whole device loop is clean. -/
lemma clean_scanLoop (t : Target) : ∀ l, clean (scanLoop t l).2 = true := by
  intro l
  induction l with
  | nil => rfl
  | cons r rest ih =>
    by_cases hz : sig0 r = 0
    · simp [scanLoop, hz, clean]
    · simp only [scanLoop, if_neg hz]
      by_cases hs : (scanStep t r).1 = true
      · rw [if_pos hs]
        exact clean_append _ _ (clean_scanStep t r)
          (by rw [restoreVerify_eq]
              exact clean_append _ _ (clean_writesOf r) (clean_readsOf t r))
      · rw [if_neg hs]
        exact clean_append _ _ (clean_scanStep t r) ih

/-- The reporting loop is clean. -/
lemma clean_reportLoop (ok : Bool) : ∀ n, clean (reportLoop ok n) = true := by
  intro n
  induction n with
  | zero => rfl
  | succ n ih => cases ok <;> simp_all [reportLoop, clean, touchesPower]

/-- C8: the power-down phase deasserts the programming lines and raises
the reset line (disabling the 12 V signal), waits 10 us, and only then
removes the supply; every attempt trace ends with this fixed block before
the reporting, and at every point of the whole trace where the supply is
driven low the high-voltage signal is already disabled. -/
theorem power_down_order (t : Target) :
    powerDownTrace =
      [MAct.setLow Line.SCI, MAct.setLow Line.SII, MAct.setLow Line.SDI,
       MAct.setHigh Line.RST, MAct.delayUs 10, MAct.setLow Line.VCC] ∧
    (∃ pre, (attempt t).2 = pre ++ (powerDownTrace ++ reportTrace (attempt t).1)) ∧
    ∀ b, hvSafe (attempt t).2 b = true := by
  refine ⟨rfl, ⟨powerUpTrace ++ (scanLoop t targetCpu).2, ?_⟩, ?_⟩
  · simp only [attempt, List.append_assoc]
  · intro b
    simp only [attempt, List.append_assoc]
    have hpu : ∀ rest c, hvSafe (powerUpTrace ++ rest) c = hvSafe rest false := by
      intro rest c
      cases c <;> rfl
    rw [hpu, hvSafe_append _ (clean_scanLoop t targetCpu)]
    have hpd : ∀ rest, hvSafe (powerDownTrace ++ rest) false = hvSafe rest true :=
      fun rest => rfl
    have hrep : clean (reportTrace (scanLoop t targetCpu).1) = true :=
      clean_reportLoop _ 16
    rw [hpd, ← List.append_nil (reportTrace (scanLoop t targetCpu).1),
      hvSafe_append _ hrep]
    rfl

/-- C9: every attempt trace ends with the reporting phase for its outcome;
the reporting phase runs 16 iterations of 250 ms each (32 actions, 16
delays, about 4 seconds), driving the active-low LED solidly on every
iteration on success and toggling it every iteration on failure; nothing
follows it, after which control is back at the trigger poll. -/
theorem reporting_phase (t : Target) :
    (∃ pre, (attempt t).2 = pre ++ reportTrace (attempt t).1) ∧
    (∀ b, (reportTrace b).length = 32) ∧
    (∀ b, (reportTrace b).count (MAct.delayMs 250) = 16) ∧
    (reportTrace true).filter isLedAct = List.replicate 16 (MAct.setLow Line.LED) ∧
    (reportTrace false).filter isLedAct = List.replicate 16 (MAct.toggle Line.LED) := by
  refine ⟨⟨powerUpTrace ++ (scanLoop t targetCpu).2 ++ powerDownTrace, ?_⟩,
    by decide, by decide, by decide, by decide⟩
  simp only [attempt, List.append_assoc]

/-- C10: each table record examined triggers fresh getSignature calls, one
for byte 0 always, one for byte 1 only if byte 0 matched, one for byte 2
only if bytes 0 and 1 also matched; consequently an attached ATtiny85
(matched by the last table record) receives 16 signature-read sequences in
one attempt while an attached ATtiny13 (matched by the first record)
receives 3, rather than every attempt issuing exactly three. -/
theorem fresh_signature_reads (t : Target) (r : TargetCpuInfo) :
    (scanStep t r).2 =
      MAct.getSig 0 ::
        (if t.sig 0 = sig0 r then
          MAct.getSig 1 :: (if t.sig 1 = sig1 r then [MAct.getSig 2] else [])
        else []) ∧
    ((attempt ⟨fun i => if i = 0 then 0x1E else if i = 1 then 0x93 else 0x0B,
        0x62, 0xDF, 0xFF⟩).2).countP isGetSig = 16 ∧
    ((attempt ⟨fun i => if i = 0 then 0x1E else if i = 1 then 0x90 else 0x07,
        0x6A, 0xFF, 0x00⟩).2).countP isGetSig = 3 := by
  refine ⟨?_, by decide, by decide⟩
  simp only [scanStep]
  split_ifs <;> rfl

/-- An action at the transfer granularity: one transferByte call with its
data and instruction bytes, or one completed poll of the SDO line. -/
inductive TAct where
  | xfer : Nat → Nat → TAct
  | pollEv : TAct
deriving DecidableEq, Repr

/-- Fuel-indexed embedding of pollSDO: the source loop spins on the SDO
input line with no bound, so termination is modelled by supplying fuel;
the result is the sample index at which the line first read high, or none
when the fuel ran out before the line went high. -/
def pollSDO (sdo : Nat → Bool) : Nat → Nat → Option Nat
  | _, 0 => none
  | s, f+1 => if sdo s then some s else pollSDO sdo (s+1) f

/-- The transfer sequence of a fuse-write operation: the four-call write
sequence with its two operation-specific opcode bytes, the first poll, the
load-no-operation transfer, the second poll. -/
def writeFuseSeq (op3 op4 code : Nat) : List TAct :=
  [TAct.xfer 0x40 0x4C, TAct.xfer code 0x2C, TAct.xfer 0 op3, TAct.xfer 0 op4,
   TAct.pollEv, TAct.xfer 0 0x4C, TAct.pollEv]

/-- Run of a fuse-write operation against an SDO trace: the operation
returns (with its transfer sequence) only when both unbounded polls find
the line high within the supplied fuel, the second poll starting after the
sample at which the first completed. -/
def writeFuseRun (op3 op4 code : Nat) (sdo : Nat → Bool) (f : Nat) :
    Option (List TAct) :=
  match pollSDO sdo 0 f with
  | none => none
  | some n =>
    match pollSDO sdo (n+1) f with
    | none => none
    | some _ => some (writeFuseSeq op3 op4 code)

/-- writeFuseLowBits: opcodes 0x64 and 0x6C. -/
def writeFuseLowBits (code : Nat) (sdo : Nat → Bool) (f : Nat) :
    Option (List TAct) := writeFuseRun 0x64 0x6C code sdo f

/-- writeFuseHighBits: opcodes 0x74 and 0x7C. -/
def writeFuseHighBits (code : Nat) (sdo : Nat → Bool) (f : Nat) :
    Option (List TAct) := writeFuseRun 0x74 0x7C code sdo f

/-- writeFuseExtendedBits: opcodes 0x66 and 0x6E. -/
def writeFuseExtendedBits (code : Nat) (sdo : Nat → Bool) (f : Nat) :
    Option (List TAct) := writeFuseRun 0x66 0x6E code sdo f

/-- A poll over a line that never reads high returns for no amount of
fuel. -/
lemma pollSDO_none (sdo : Nat → Bool) (hnever : ∀ n, sdo n = false) :
    ∀ f s, pollSDO sdo s f = none := by
  intro f
  induction f with
  | zero => intro s; rfl
  | succ f ih =>
    intro s
    simp only [pollSDO, hnever s, Bool.false_eq_true, if_false]
    exact ih (s+1)

/-- A poll returns within fuel reaching past a sample where the line is
high. -/
lemma pollSDO_isSome (sdo : Nat → Bool) :
    ∀ f s n, s ≤ n → n < s + f → sdo n = true →
      (pollSDO sdo s f).isSome = true := by
  intro f
  induction f with
  | zero =>
    intro s n h1 h2 _
    omega
  | succ f ih =>
    intro s n h1 h2 h3
    by_cases hs : sdo s = true
    · simp [pollSDO, hs]
    · have hne : s ≠ n := by
        intro e
        rw [e] at hs
        exact hs h3
      simp only [pollSDO, hs, Bool.false_eq_true, if_false]
      exact ih (s+1) n (by omega) (by omega) h3

/-- Poll results are stable under extra fuel. -/
lemma pollSDO_mono (sdo : Nat → Bool) :
    ∀ f s n, pollSDO sdo s f = some n → pollSDO sdo s (f+1) = some n := by
  intro f
  induction f with
  | zero => intro s n h; exact absurd h (by simp [pollSDO])
  | succ f ih =>
    intro s n h
    rw [pollSDO] at h
    by_cases hs : sdo s = true
    · rw [if_pos hs] at h
      simp only [pollSDO, if_pos hs]
      exact h
    · rw [if_neg hs] at h
      simp only [pollSDO, if_neg hs]
      exact ih (s+1) n h

/-- Poll results are stable under any larger fuel. -/
lemma pollSDO_le (sdo : Nat → Bool) (f g s n : Nat) (hfg : f ≤ g)
    (h : pollSDO sdo s f = some n) : pollSDO sdo s g = some n := by
  induction g with
  | zero =>
    have : f = 0 := by omega
    rw [this] at h
    exact absurd h (by simp [pollSDO])
  | succ g ih =>
    by_cases he : f = g + 1
    · rw [← he]; exact h
    · exact pollSDO_mono sdo g s n (ih (by omega))

/-- C6: each fuse-write operation performs its four-call transfer sequence,
an unbounded poll of the input line, one load-no-operation transfer, and a
second unbounded poll; on an input trace where the line never goes high no
amount of fuel makes any of the three operations return, and on a trace
where the line goes high again and again every operation returns with that
exact transfer sequence. -/
theorem fuse_write_poll_behavior (code : Nat) (sdo : Nat → Bool) :
    (writeFuseSeq 0x64 0x6C code =
      [TAct.xfer 0x40 0x4C, TAct.xfer code 0x2C, TAct.xfer 0 0x64,
       TAct.xfer 0 0x6C, TAct.pollEv, TAct.xfer 0 0x4C, TAct.pollEv]) ∧
    ((∀ n, sdo n = false) →
      ∀ f, writeFuseLowBits code sdo f = none ∧
        writeFuseHighBits code sdo f = none ∧
        writeFuseExtendedBits code sdo f = none) ∧
    ((∀ s, ∃ n, s ≤ n ∧ sdo n = true) →
      ∃ f, writeFuseLowBits code sdo f = some (writeFuseSeq 0x64 0x6C code) ∧
        writeFuseHighBits code sdo f = some (writeFuseSeq 0x74 0x7C code) ∧
        writeFuseExtendedBits code sdo f = some (writeFuseSeq 0x66 0x6E code)) := by
  refine ⟨rfl, ?_, ?_⟩
  · intro hnever f
    have h0 : pollSDO sdo 0 f = none := pollSDO_none sdo hnever f 0
    refine ⟨?_, ?_, ?_⟩ <;>
      simp [writeFuseLowBits, writeFuseHighBits, writeFuseExtendedBits,
        writeFuseRun, h0]
  · intro hio
    obtain ⟨n1, -, hs1⟩ := hio 0
    have hp1 : (pollSDO sdo 0 (n1+1)).isSome = true :=
      pollSDO_isSome sdo (n1+1) 0 n1 (Nat.zero_le n1) (by omega) hs1
    obtain ⟨m, hm⟩ := Option.isSome_iff_exists.mp hp1
    obtain ⟨n2, hn2, hs2⟩ := hio (m+1)
    have hp2 : (pollSDO sdo (m+1) (n2+1)).isSome = true :=
      pollSDO_isSome sdo (n2+1) (m+1) n2 hn2 (by omega) hs2
    obtain ⟨m2, hm2⟩ := Option.isSome_iff_exists.mp hp2
    refine ⟨n1 + n2 + 2, ?_⟩
    have hq1 : pollSDO sdo 0 (n1 + n2 + 2) = some m :=
      pollSDO_le sdo (n1+1) (n1 + n2 + 2) 0 m (by omega) hm
    have hq2 : pollSDO sdo (m+1) (n1 + n2 + 2) = some m2 :=
      pollSDO_le sdo (n2+1) (n1 + n2 + 2) (m+1) m2 (by omega) hm2
    refine ⟨?_, ?_, ?_⟩ <;>
      simp [writeFuseLowBits, writeFuseHighBits, writeFuseExtendedBits,
        writeFuseRun, hq1, hq2]

/-- Concrete instantiation of the fuse-write poll theorem: on a line stuck
low no fuel suffices, and on a line always high every operation returns. -/
theorem fuse_write_poll_behavior_witness :
    (∀ f, writeFuseLowBits 0x6A (fun _ => false) f = none ∧
      writeFuseHighBits 0x6A (fun _ => false) f = none ∧
      writeFuseExtendedBits 0x6A (fun _ => false) f = none) ∧
    (∃ f, writeFuseLowBits 0x6A (fun _ => true) f =
        some (writeFuseSeq 0x64 0x6C 0x6A) ∧
      writeFuseHighBits 0x6A (fun _ => true) f =
        some (writeFuseSeq 0x74 0x7C 0x6A) ∧
      writeFuseExtendedBits 0x6A (fun _ => true) f =
        some (writeFuseSeq 0x66 0x6E 0x6A)) :=
  ⟨(fuse_write_poll_behavior 0x6A (fun _ => false)).2.1 (fun _ => rfl),
   (fuse_write_poll_behavior 0x6A (fun _ => true)).2.2
     (fun s => ⟨s, Nat.le_refl s, rfl⟩)⟩

end Hvsp
